import Mathlib

/-!
Verification of the geometric slicing and packing kernel of BubblePrinter.

The kernel lives in `src/geometry_utils.js` (plane intersection of a
triangle, graph-based segment stitching) and `src/bubble_generator.js`
(layer packing: step sizing, base flattening, layer loop, grid-point
enumeration, even-odd point-in-polygon test).  JavaScript numbers are
modelled by exact rationals `ℚ` (real-valued trigonometry for the base
flattening is modelled over `ℝ`); fallible results are `Option`.
-/

namespace BubblePrinter

/-- A 3D point (world coordinates), as used by the slicer. -/
structure Vec3 where
  x : ℚ
  y : ℚ
  z : ℚ
deriving DecidableEq, Repr

/-- A 2D point of a contour loop, stored as `[point.x, point.y]` in the code. -/
abbrev Point2 := ℚ × ℚ

/-- An intersection segment: an ordered pair of 3D points. -/
abbrev Seg := Vec3 × Vec3

/-! ## PlaneIntersector — `getTriangleIntersectionSegments`
(src/geometry_utils.js lines 62–90) -/

/-- One iteration of the edge loop of `getTriangleIntersectionSegments`
(src/geometry_utils.js lines 66–84): classify the edge `(pa, pb)` against
the plane `z = z0` and extend the collected point list accordingly. -/
def processEdge (z0 : ℚ) (points : List Vec3) (pa pb : Vec3) : List Vec3 :=
  if (pa.z ≥ z0 ∧ pb.z < z0) ∨ (pa.z < z0 ∧ pb.z ≥ z0) then
    -- Edge crosses the plane
    let t := (z0 - pa.z) / (pb.z - pa.z)
    points ++ [⟨pa.x + t * (pb.x - pa.x), pa.y + t * (pb.y - pa.y), z0⟩]
  else if pa.z = z0 ∧ pb.z = z0 then
    -- Edge lies exactly on the plane: skipped
    points
  else if pa.z = z0 then
    -- Vertex lies on the plane; deduplicated against collected points
    if points.any (fun p => p = pa) then points else points ++ [pa]
  else
    points

/-- The point list collected by `getTriangleIntersectionSegments` over the
three edges `[v1,v2], [v2,v3], [v3,v1]` in order. -/
def trianglePoints (v1 v2 v3 : Vec3) (z0 : ℚ) : List Vec3 :=
  processEdge z0 (processEdge z0 (processEdge z0 [] v1 v2) v2 v3) v3 v1

/-- `getTriangleIntersectionSegments` (src/geometry_utils.js lines 62–90):
returns one segment `[points[0], points[1]]` when at least two points were
collected, else `null` (modelled as `none`). -/
def getTriangleIntersectionSegments (v1 v2 v3 : Vec3) (z0 : ℚ) :
    Option (List Seg) :=
  match trianglePoints v1 v2 v3 z0 with
  | p0 :: p1 :: _ => some [(p0, p1)]
  | _ => none

/-! ## ContourStitcher — `stitchSegments`
(src/geometry_utils.js lines 102–176) -/

/-- A quantized vertex key: `toFixed(6)` on each coordinate is modelled as
rounding `x·10^6` to the nearest integer. -/
abbrev Key := ℤ × ℤ

/-- `getPointKey` (src/geometry_utils.js line 107). -/
def getPointKey (v : Vec3) : Key :=
  (round (v.x * 1000000), round (v.y * 1000000))

/-- An adjacency entry `{ point, key, id }` (src/geometry_utils.js line 122). -/
structure AdjEntry where
  point : Vec3
  key : Key
  id : ℕ
deriving DecidableEq, Repr

/-- The adjacency list of a key in the graph built at
src/geometry_utils.js lines 114–124: for each segment `i = (p1, p2)` in
order, an entry `(p2, k2, i)` is appended under `k1` and `(p1, k1, i)`
under `k2`. -/
def adjList (segments : List Seg) (k : Key) : List AdjEntry :=
  (segments.enum).flatMap (fun is =>
    (if getPointKey is.2.1 = k then [⟨is.2.2, getPointKey is.2.2, is.1⟩] else []) ++
    (if getPointKey is.2.2 = k then [⟨is.2.1, getPointKey is.2.1, is.1⟩] else []))

/-- The `while (expanding)` walk (src/geometry_utils.js lines 144–164):
repeatedly take the first unvisited segment incident to the current key,
append its far endpoint to the loop and advance.  Fuel bounds the number
of steps; `stitchSegments` supplies fuel `segments.length`, which is
enough since every step visits a fresh segment. -/
def walkLoop (segments : List Seg) :
    ℕ → Key → List ℕ → List Point2 → List Point2 × List ℕ
  | 0, _, visited, loop => (loop, visited)
  | fuel + 1, currKey, visited, loop =>
    match (adjList segments currKey).find? (fun e => !(visited.contains e.id)) with
    | none => (loop, visited)
    | some e =>
      walkLoop segments fuel e.key (e.id :: visited)
        (loop ++ [(e.point.x, e.point.y)])

/-- Default segment used only to totalize list indexing (never reached:
the outer traversal indexes with `i < segments.length`). -/
def defaultSeg : Seg := (⟨0, 0, 0⟩, ⟨0, 0, 0⟩)

/-- The outer `segments.forEach` traversal (src/geometry_utils.js lines
127–173): start a loop at each unvisited segment, walk it, and emit the
chain only when it has at least 3 points. -/
def stitchOuter (segments : List Seg) :
    List ℕ → List ℕ → List (List Point2) → List (List Point2)
  | [], _, loops => loops
  | i :: rest, visited, loops =>
    if visited.contains i then stitchOuter segments rest visited loops
    else
      let seg := segments.getD i defaultSeg
      let loop0 : List Point2 := [(seg.1.x, seg.1.y), (seg.2.x, seg.2.y)]
      let res := walkLoop segments segments.length (getPointKey seg.2)
        (i :: visited) loop0
      stitchOuter segments rest res.2
        (if 3 ≤ res.1.length then loops ++ [res.1] else loops)

/-- `stitchSegments` (src/geometry_utils.js lines 102–176). -/
def stitchSegments (segments : List Seg) : List (List Point2) :=
  if segments.isEmpty then []
  else stitchOuter segments (List.range segments.length) [] []

/-! ## `getSliceContours` (src/geometry_utils.js lines 9–52)
The mesh is modelled as its world-space triangle list. -/

/-- A mesh: the stream of world-space triangles traversed by
`getSliceContours`. -/
abbrev Mesh := List (Vec3 × Vec3 × Vec3)

/-- The segment list accumulated by `getSliceContours` before stitching
(src/geometry_utils.js lines 26–47): each triangle contributes its
intersection segments, `null` contributing nothing. -/
def sliceSegments (mesh : Mesh) (z0 : ℚ) : List Seg :=
  mesh.flatMap (fun t => (getTriangleIntersectionSegments t.1 t.2.1 t.2.2 z0).getD [])

/-- `getSliceContours` (src/geometry_utils.js lines 9–52). -/
def getSliceContours (mesh : Mesh) (z0 : ℚ) : List (List Point2) :=
  stitchSegments (sliceSegments mesh z0)

/-! ## LayerPacker — `BubbleGenerator.generateGeometry`
(src/bubble_generator.js lines 20–95) -/

/-- `overlapFactor = 1 - overlap / 100` (src/bubble_generator.js lines
33 and 36).  No clamping is applied to the overlap percentage. -/
def overlapFactor (overlap : ℚ) : ℚ := 1 - overlap / 100

/-- `layerStep = (radius * 2) * overlapFactorV` (src/bubble_generator.js
line 34). -/
def layerStep (radius overlapV : ℚ) : ℚ := (radius * 2) * overlapFactor overlapV

/-- `horizontalStep = (radius * 2) * overlapFactorH`
(src/bubble_generator.js line 37). -/
def horizontalStep (radius overlapH : ℚ) : ℚ := (radius * 2) * overlapFactor overlapH

/-- `thetaLength = Math.PI * (1 - (Math.max(0, Math.min(100,
baseFlattenPercent)) / 100))` (src/bubble_generator.js line 40). -/
noncomputable def thetaLength (baseFlattenPercent : ℝ) : ℝ :=
  Real.pi * (1 - max 0 (min 100 baseFlattenPercent) / 100)

/-- `baseZOffset = -(radius * Math.cos(thetaLength))`
(src/bubble_generator.js line 43). -/
noncomputable def baseZOffset (radius baseFlattenPercent : ℝ) : ℝ :=
  -(radius * Real.cos (thetaLength baseFlattenPercent))

/-- `centerZ0 = minZ + baseZOffset` (src/bubble_generator.js line 44). -/
noncomputable def centerZ0 (minZ radius baseFlattenPercent : ℝ) : ℝ :=
  minZ + baseZOffset radius baseFlattenPercent

/-- The list of layer indices whose loop body executes, starting from
index `i` (src/bubble_generator.js lines 51–86): the `while (true)` loop
computes `centerZ = centerZ0 + layerIndex * layerStep`, breaks at the top
when `centerZ - radius > maxZ`, and breaks at the bottom after the
increment when `layerIndex > 700`. -/
def layerIndicesFrom (c0 step radius maxZ : ℚ) (i : ℕ) : List ℕ :=
  if c0 + i * step - radius > maxZ then []
  else
    i :: (if h : i + 1 > 700 then [] else layerIndicesFrom c0 step radius maxZ (i + 1))
termination_by 701 - i
decreasing_by omega

/-- The layer indices executed by the packing loop (it starts at
`layerIndex = 0`). -/
def layerIndices (c0 step radius maxZ : ℚ) : List ℕ :=
  layerIndicesFrom c0 step radius maxZ 0

/-! ## PolygonContainment — `isPointInContours`
(src/bubble_generator.js lines 129–143) -/

/-- `isPointInContours` (src/bubble_generator.js lines 129–143): even-odd
ray casting, with the inside flag toggled across all contours.  The inner
loop visits edges `(polygon[i], polygon[j])` with `j` the predecessor
index (wrapping to the last point for `i = 0`). -/
def isPointInContours (x y : ℚ) (contours : List (List Point2)) : Bool :=
  contours.foldl (fun inside polygon =>
    (List.range polygon.length).foldl (fun ins i =>
      let j := if i = 0 then polygon.length - 1 else i - 1
      let pi2 := polygon.getD i (0, 0)
      let pj2 := polygon.getD j (0, 0)
      if ((pi2.2 > y) ≠ (pj2.2 > y)) ∧
          x < (pj2.1 - pi2.1) * (y - pi2.2) / (pj2.2 - pi2.2) + pi2.1
      then !ins else ins) inside) false

/-! ## Grid sampling — `getGridPointsInContours`
(src/bubble_generator.js lines 102–124) -/

/-- The world-space bounding box of the mesh (only the fields the grid
sampler reads). -/
structure Box2 where
  minX : ℚ
  minY : ℚ
  maxX : ℚ
  maxY : ℚ
deriving DecidableEq, Repr

/-- The inclusive integer range `[a, b]` iterated by the
`for (let n = startN; n <= endN; n++)` loops. -/
def intRange (a b : ℤ) : List ℤ :=
  (List.range (b - a + 1).toNat).map (fun k : ℕ => a + (k : ℤ))

/-- `getGridPointsInContours` (src/bubble_generator.js lines 102–124):
enumerate the absolute lattice `x = n·spacing + spacing/2`,
`y = m·spacing + spacing/2` over the index ranges covering the bounding
box, keeping the points classified inside the contours. -/
def getGridPointsInContours (contours : List (List Point2)) (box : Box2)
    (spacing : ℚ) : List Point2 :=
  let startN := ⌊(box.minX - spacing / 2) / spacing⌋
  let endN := ⌈(box.maxX - spacing / 2) / spacing⌉
  let startM := ⌊(box.minY - spacing / 2) / spacing⌋
  let endM := ⌈(box.maxY - spacing / 2) / spacing⌉
  (intRange startN endN).flatMap (fun n : ℤ =>
    let x := (n : ℚ) * spacing + spacing / 2
    (intRange startM endM).filterMap (fun m : ℤ =>
      let y := (m : ℚ) * spacing + spacing / 2
      if isPointInContours x y contours then some (x, y) else none))

/-- The twelve-triangle axis-aligned triangulation of the cube of side 10
centered at the origin (each face split along a diagonal), as streamed by
`getSliceContours`. -/
def cube10 : Mesh :=
  [(⟨-5,-5,-5⟩,⟨5,5,-5⟩,⟨5,-5,-5⟩), (⟨-5,-5,-5⟩,⟨-5,5,-5⟩,⟨5,5,-5⟩),
   (⟨-5,-5,5⟩,⟨5,-5,5⟩,⟨5,5,5⟩), (⟨-5,-5,5⟩,⟨5,5,5⟩,⟨-5,5,5⟩),
   (⟨-5,-5,-5⟩,⟨5,-5,-5⟩,⟨5,-5,5⟩), (⟨-5,-5,-5⟩,⟨5,-5,5⟩,⟨-5,-5,5⟩),
   (⟨5,-5,-5⟩,⟨5,5,-5⟩,⟨5,5,5⟩), (⟨5,-5,-5⟩,⟨5,5,5⟩,⟨5,-5,5⟩),
   (⟨5,5,-5⟩,⟨-5,5,-5⟩,⟨-5,5,5⟩), (⟨5,5,-5⟩,⟨-5,5,5⟩,⟨5,5,5⟩),
   (⟨-5,5,-5⟩,⟨-5,-5,-5⟩,⟨-5,-5,5⟩), (⟨-5,5,-5⟩,⟨-5,-5,5⟩,⟨-5,5,5⟩)]

/-! ## Lemmas about the edge classification of `processEdge` -/

/-- When the edge crosses the plane (one endpoint at `z ≥ z0`, the other
strictly below), the interpolated point is appended. -/
theorem processEdge_cross (z0 : ℚ) (pts : List Vec3) (pa pb : Vec3)
    (h : (pa.z ≥ z0 ∧ pb.z < z0) ∨ (pa.z < z0 ∧ pb.z ≥ z0)) :
    processEdge z0 pts pa pb =
      pts ++ [⟨pa.x + (z0 - pa.z) / (pb.z - pa.z) * (pb.x - pa.x),
              pa.y + (z0 - pa.z) / (pb.z - pa.z) * (pb.y - pa.y), z0⟩] := by
  unfold processEdge
  rw [if_pos h]

/-- A crossing edge grows the point list by exactly one. -/
theorem processEdge_cross_length (z0 : ℚ) (pts : List Vec3) (pa pb : Vec3)
    (h : (pa.z ≥ z0 ∧ pb.z < z0) ∨ (pa.z < z0 ∧ pb.z ≥ z0)) :
    (processEdge z0 pts pa pb).length = pts.length + 1 := by
  rw [processEdge_cross z0 pts pa pb h]
  simp

/-- `processEdge` never removes collected points. -/
theorem processEdge_length_le (z0 : ℚ) (pts : List Vec3) (pa pb : Vec3) :
    pts.length ≤ (processEdge z0 pts pa pb).length := by
  unfold processEdge
  split_ifs <;> simp

/-- An edge whose first endpoint is strictly above the plane and whose
second endpoint is not below it leaves the point list unchanged. -/
theorem processEdge_above (z0 : ℚ) (pts : List Vec3) (pa pb : Vec3)
    (ha : z0 < pa.z) (hb : z0 ≤ pb.z) :
    processEdge z0 pts pa pb = pts := by
  unfold processEdge
  rw [if_neg, if_neg, if_neg]
  · exact fun h => absurd h (ne_of_gt ha)
  · rintro ⟨h1, -⟩
    exact absurd h1 (ne_of_gt ha)
  · rintro (⟨-, h2⟩ | ⟨h1, -⟩)
    · exact absurd h2 (not_lt.mpr hb)
    · exact absurd h1 (not_lt.mpr (le_of_lt ha))

/-- An edge entirely strictly below the plane leaves the point list
unchanged. -/
theorem processEdge_below (z0 : ℚ) (pts : List Vec3) (pa pb : Vec3)
    (ha : pa.z < z0) (hb : pb.z < z0) :
    processEdge z0 pts pa pb = pts := by
  unfold processEdge
  rw [if_neg, if_neg, if_neg]
  · exact fun h => absurd h (ne_of_lt ha)
  · rintro ⟨h1, -⟩
    exact absurd h1 (ne_of_lt ha)
  · rintro (⟨h1, -⟩ | ⟨-, h2⟩)
    · exact absurd h1 (not_le.mpr ha)
    · exact absurd h2 (not_le.mpr hb)

/-- An edge lying entirely on the plane is skipped. -/
theorem processEdge_on_plane (z0 : ℚ) (pts : List Vec3) (pa pb : Vec3)
    (ha : pa.z = z0) (hb : pb.z = z0) :
    processEdge z0 pts pa pb = pts := by
  unfold processEdge
  rw [if_neg, if_pos ⟨ha, hb⟩]
  rintro (⟨-, h2⟩ | ⟨h1, -⟩)
  · exact absurd h2 (by rw [hb]; exact lt_irrefl z0)
  · exact absurd h1 (by rw [ha]; exact lt_irrefl z0)

/-- An edge whose first endpoint lies on the plane and whose second is
strictly above takes the vertex branch (with deduplication). -/
theorem processEdge_vertex (z0 : ℚ) (pts : List Vec3) (pa pb : Vec3)
    (ha : pa.z = z0) (hb : z0 < pb.z) :
    processEdge z0 pts pa pb =
      if pts.any (fun p => p = pa) then pts else pts ++ [pa] := by
  unfold processEdge
  rw [if_neg, if_neg, if_pos ha]
  · rintro ⟨-, h2⟩
    exact absurd h2 (ne_of_gt hb)
  · rintro (⟨-, h2⟩ | ⟨h1, -⟩)
    · exact absurd h2 (not_lt.mpr (le_of_lt hb))
    · exact absurd h1 (by rw [ha]; exact lt_irrefl z0)

/-- An edge whose second endpoint lies on the plane and whose first is
strictly above contributes nothing (the vertex branch tests only the
first endpoint). -/
theorem processEdge_vertex_second (z0 : ℚ) (pts : List Vec3) (pa pb : Vec3)
    (ha : z0 < pa.z) (hb : pb.z = z0) :
    processEdge z0 pts pa pb = pts :=
  processEdge_above z0 pts pa pb ha (le_of_eq hb.symm)

/-- If the first and second edges cross, at least two points are
collected. -/
theorem two_le_tp_of_cross12 (v1 v2 v3 : Vec3) (z0 : ℚ)
    (h1 : (v1.z ≥ z0 ∧ v2.z < z0) ∨ (v1.z < z0 ∧ v2.z ≥ z0))
    (h2 : (v2.z ≥ z0 ∧ v3.z < z0) ∨ (v2.z < z0 ∧ v3.z ≥ z0)) :
    2 ≤ (trianglePoints v1 v2 v3 z0).length := by
  unfold trianglePoints
  have a1 := processEdge_cross_length z0 [] v1 v2 h1
  have a2 := processEdge_cross_length z0 (processEdge z0 [] v1 v2) v2 v3 h2
  have a3 := processEdge_length_le z0
    (processEdge z0 (processEdge z0 [] v1 v2) v2 v3) v3 v1
  simp only [List.length_nil] at a1
  omega

/-- If the first and third edges cross, at least two points are
collected. -/
theorem two_le_tp_of_cross13 (v1 v2 v3 : Vec3) (z0 : ℚ)
    (h1 : (v1.z ≥ z0 ∧ v2.z < z0) ∨ (v1.z < z0 ∧ v2.z ≥ z0))
    (h3 : (v3.z ≥ z0 ∧ v1.z < z0) ∨ (v3.z < z0 ∧ v1.z ≥ z0)) :
    2 ≤ (trianglePoints v1 v2 v3 z0).length := by
  unfold trianglePoints
  have a1 := processEdge_cross_length z0 [] v1 v2 h1
  have a2 := processEdge_length_le z0 (processEdge z0 [] v1 v2) v2 v3
  have a3 := processEdge_cross_length z0
    (processEdge z0 (processEdge z0 [] v1 v2) v2 v3) v3 v1 h3
  simp only [List.length_nil] at a1
  omega

/-- If the second and third edges cross, at least two points are
collected. -/
theorem two_le_tp_of_cross23 (v1 v2 v3 : Vec3) (z0 : ℚ)
    (h2 : (v2.z ≥ z0 ∧ v3.z < z0) ∨ (v2.z < z0 ∧ v3.z ≥ z0))
    (h3 : (v3.z ≥ z0 ∧ v1.z < z0) ∨ (v3.z < z0 ∧ v1.z ≥ z0)) :
    2 ≤ (trianglePoints v1 v2 v3 z0).length := by
  unfold trianglePoints
  have a1 := processEdge_length_le z0 [] v1 v2
  have a2 := processEdge_cross_length z0 (processEdge z0 [] v1 v2) v2 v3 h2
  have a3 := processEdge_cross_length z0
    (processEdge z0 (processEdge z0 [] v1 v2) v2 v3) v3 v1 h3
  simp only [List.length_nil] at a1
  omega

/-- With one vertex strictly above and one strictly below the plane, at
least two points are collected. -/
theorem two_le_tp_of_above_below (v1 v2 v3 : Vec3) (z0 : ℚ)
    (hA : z0 < v1.z ∨ z0 < v2.z ∨ z0 < v3.z)
    (hB : v1.z < z0 ∨ v2.z < z0 ∨ v3.z < z0) :
    2 ≤ (trianglePoints v1 v2 v3 z0).length := by
  rcases hA with ha | ha | ha <;> rcases hB with hb | hb | hb
  · exact absurd hb (not_lt.mpr (le_of_lt ha))
  · -- v1 above, v2 below
    rcases le_or_lt z0 v3.z with hc | hc
    · exact two_le_tp_of_cross12 v1 v2 v3 z0 (Or.inl ⟨le_of_lt ha, hb⟩)
        (Or.inr ⟨hb, hc⟩)
    · exact two_le_tp_of_cross13 v1 v2 v3 z0 (Or.inl ⟨le_of_lt ha, hb⟩)
        (Or.inr ⟨hc, le_of_lt ha⟩)
  · -- v1 above, v3 below
    rcases le_or_lt z0 v2.z with hc | hc
    · exact two_le_tp_of_cross23 v1 v2 v3 z0 (Or.inl ⟨hc, hb⟩)
        (Or.inr ⟨hb, le_of_lt ha⟩)
    · exact two_le_tp_of_cross13 v1 v2 v3 z0 (Or.inl ⟨le_of_lt ha, hc⟩)
        (Or.inr ⟨hb, le_of_lt ha⟩)
  · -- v2 above, v1 below
    rcases le_or_lt z0 v3.z with hc | hc
    · exact two_le_tp_of_cross13 v1 v2 v3 z0 (Or.inr ⟨hb, le_of_lt ha⟩)
        (Or.inl ⟨hc, hb⟩)
    · exact two_le_tp_of_cross12 v1 v2 v3 z0 (Or.inr ⟨hb, le_of_lt ha⟩)
        (Or.inl ⟨le_of_lt ha, hc⟩)
  · exact absurd hb (not_lt.mpr (le_of_lt ha))
  · -- v2 above, v3 below
    rcases le_or_lt z0 v1.z with hc | hc
    · exact two_le_tp_of_cross23 v1 v2 v3 z0 (Or.inl ⟨le_of_lt ha, hb⟩)
        (Or.inr ⟨hb, hc⟩)
    · exact two_le_tp_of_cross12 v1 v2 v3 z0 (Or.inr ⟨hc, le_of_lt ha⟩)
        (Or.inl ⟨le_of_lt ha, hb⟩)
  · -- v3 above, v1 below
    rcases le_or_lt z0 v2.z with hc | hc
    · exact two_le_tp_of_cross13 v1 v2 v3 z0 (Or.inr ⟨hb, hc⟩)
        (Or.inl ⟨le_of_lt ha, hb⟩)
    · exact two_le_tp_of_cross23 v1 v2 v3 z0 (Or.inr ⟨hc, le_of_lt ha⟩)
        (Or.inl ⟨le_of_lt ha, hb⟩)
  · -- v3 above, v2 below
    rcases le_or_lt z0 v1.z with hc | hc
    · exact two_le_tp_of_cross12 v1 v2 v3 z0 (Or.inl ⟨hc, hb⟩)
        (Or.inr ⟨hb, le_of_lt ha⟩)
    · exact two_le_tp_of_cross23 v1 v2 v3 z0 (Or.inr ⟨hb, le_of_lt ha⟩)
        (Or.inl ⟨le_of_lt ha, hc⟩)
  · exact absurd hb (not_lt.mpr (le_of_lt ha))

/-- When at least two points are collected, exactly one segment is
returned. -/
theorem exists_seg_of_two_le (v1 v2 v3 : Vec3) (z0 : ℚ)
    (h : 2 ≤ (trianglePoints v1 v2 v3 z0).length) :
    ∃ s, getTriangleIntersectionSegments v1 v2 v3 z0 = some [s] := by
  unfold getTriangleIntersectionSegments
  rcases hm : trianglePoints v1 v2 v3 z0 with - | ⟨p0, - | ⟨p1, rest⟩⟩
  · rw [hm] at h
    simp at h
  · rw [hm] at h
    simp at h
  · exact ⟨(p0, p1), rfl⟩

/-- All vertices strictly below the plane: no points, no segment. -/
theorem tri_none_of_all_below (v1 v2 v3 : Vec3) (z0 : ℚ)
    (h1 : v1.z < z0) (h2 : v2.z < z0) (h3 : v3.z < z0) :
    getTriangleIntersectionSegments v1 v2 v3 z0 = none := by
  unfold getTriangleIntersectionSegments trianglePoints
  rw [processEdge_below z0 [] v1 v2 h1 h2, processEdge_below z0 [] v2 v3 h2 h3,
    processEdge_below z0 [] v3 v1 h3 h1]

/-- All vertices strictly above the plane: no points, no segment. -/
theorem tri_none_of_all_above (v1 v2 v3 : Vec3) (z0 : ℚ)
    (h1 : z0 < v1.z) (h2 : z0 < v2.z) (h3 : z0 < v3.z) :
    getTriangleIntersectionSegments v1 v2 v3 z0 = none := by
  unfold getTriangleIntersectionSegments trianglePoints
  rw [processEdge_above z0 [] v1 v2 h1 (le_of_lt h2),
    processEdge_above z0 [] v2 v3 h2 (le_of_lt h3),
    processEdge_above z0 [] v3 v1 h3 (le_of_lt h1)]

/-- Touching the plane at vertex `v1` only, from above: one point, no
segment. -/
theorem tri_touch_above1 (v1 v2 v3 : Vec3) (z0 : ℚ)
    (h1 : v1.z = z0) (h2 : z0 < v2.z) (h3 : z0 < v3.z) :
    getTriangleIntersectionSegments v1 v2 v3 z0 = none := by
  unfold getTriangleIntersectionSegments trianglePoints
  rw [processEdge_vertex z0 [] v1 v2 h1 h2]
  simp only [List.any_nil, Bool.false_eq_true, if_false, List.nil_append]
  rw [processEdge_above z0 [v1] v2 v3 h2 (le_of_lt h3),
    processEdge_above z0 [v1] v3 v1 h3 (le_of_eq h1.symm)]

/-- Touching the plane at vertex `v2` only, from above: one point, no
segment. -/
theorem tri_touch_above2 (v1 v2 v3 : Vec3) (z0 : ℚ)
    (h2 : v2.z = z0) (h1 : z0 < v1.z) (h3 : z0 < v3.z) :
    getTriangleIntersectionSegments v1 v2 v3 z0 = none := by
  unfold getTriangleIntersectionSegments trianglePoints
  rw [processEdge_above z0 [] v1 v2 h1 (le_of_eq h2.symm),
    processEdge_vertex z0 [] v2 v3 h2 h3]
  simp only [List.any_nil, Bool.false_eq_true, if_false, List.nil_append]
  rw [processEdge_above z0 [v2] v3 v1 h3 (le_of_lt h1)]

/-- Touching the plane at vertex `v3` only, from above: one point, no
segment. -/
theorem tri_touch_above3 (v1 v2 v3 : Vec3) (z0 : ℚ)
    (h3 : v3.z = z0) (h1 : z0 < v1.z) (h2 : z0 < v2.z) :
    getTriangleIntersectionSegments v1 v2 v3 z0 = none := by
  unfold getTriangleIntersectionSegments trianglePoints
  rw [processEdge_above z0 [] v1 v2 h1 (le_of_lt h2),
    processEdge_above z0 [] v2 v3 h2 (le_of_eq h3.symm),
    processEdge_vertex z0 [] v3 v1 h3 h1]
  simp

/-- Touching the plane at vertex `v1` only, from below: the two crossing
branches both interpolate to `v1`, producing a degenerate segment. -/
theorem tri_touch_below1 (v1 v2 v3 : Vec3) (z0 : ℚ)
    (h1 : v1.z = z0) (h2 : v2.z < z0) (h3 : v3.z < z0) :
    getTriangleIntersectionSegments v1 v2 v3 z0 = some [(v1, v1)] := by
  obtain ⟨x1, y1, z1⟩ := v1
  simp only at h1
  rw [eq_comm] at h1
  subst h1
  unfold getTriangleIntersectionSegments trianglePoints
  rw [processEdge_cross z0 [] _ v2 (Or.inl ⟨le_refl z0, h2⟩),
    processEdge_below z0 _ v2 v3 h2 h3,
    processEdge_cross z0 _ v3 _ (Or.inr ⟨h3, le_refl z0⟩)]
  have hne : z0 - v3.z ≠ 0 := sub_ne_zero.mpr (ne_of_gt h3)
  simp [div_self hne]

/-- Touching the plane at vertex `v2` only, from below: degenerate
segment at `v2`. -/
theorem tri_touch_below2 (v1 v2 v3 : Vec3) (z0 : ℚ)
    (h2 : v2.z = z0) (h1 : v1.z < z0) (h3 : v3.z < z0) :
    getTriangleIntersectionSegments v1 v2 v3 z0 = some [(v2, v2)] := by
  obtain ⟨x2, y2, z2⟩ := v2
  simp only at h2
  rw [eq_comm] at h2
  subst h2
  unfold getTriangleIntersectionSegments trianglePoints
  rw [processEdge_cross z0 [] v1 _ (Or.inr ⟨h1, le_refl z0⟩),
    processEdge_cross z0 _ _ v3 (Or.inl ⟨le_refl z0, h3⟩),
    processEdge_below z0 _ v3 v1 h3 h1]
  have hne : z0 - v1.z ≠ 0 := sub_ne_zero.mpr (ne_of_gt h1)
  simp [div_self hne]

/-- Touching the plane at vertex `v3` only, from below: degenerate
segment at `v3`. -/
theorem tri_touch_below3 (v1 v2 v3 : Vec3) (z0 : ℚ)
    (h3 : v3.z = z0) (h1 : v1.z < z0) (h2 : v2.z < z0) :
    getTriangleIntersectionSegments v1 v2 v3 z0 = some [(v3, v3)] := by
  obtain ⟨x3, y3, z3⟩ := v3
  simp only at h3
  rw [eq_comm] at h3
  subst h3
  unfold getTriangleIntersectionSegments trianglePoints
  rw [processEdge_below z0 [] v1 v2 h1 h2,
    processEdge_cross z0 [] v2 _ (Or.inr ⟨h2, le_refl z0⟩),
    processEdge_cross z0 _ _ v1 (Or.inl ⟨le_refl z0, h1⟩)]
  have hne : z0 - v2.z ≠ 0 := sub_ne_zero.mpr (ne_of_gt h2)
  simp [div_self hne]

/-! ## Claim theorems -/

/-- C1 (amended): a triangle with one vertex strictly above and one
strictly below the plane yields exactly one segment; a triangle entirely
strictly above or entirely strictly below yields no segment; a triangle
touching the plane at a single vertex yields no segment when its other
vertices are strictly above, but when they are strictly below the two
crossing branches interpolate to the touching vertex and a degenerate
one-point segment is returned (not `null`). -/
theorem getTriangleIntersectionSegments_cases (v1 v2 v3 : Vec3) (z0 : ℚ) :
    ((z0 < v1.z ∨ z0 < v2.z ∨ z0 < v3.z) → (v1.z < z0 ∨ v2.z < z0 ∨ v3.z < z0) →
      ∃ s, getTriangleIntersectionSegments v1 v2 v3 z0 = some [s]) ∧
    (z0 < v1.z → z0 < v2.z → z0 < v3.z →
      getTriangleIntersectionSegments v1 v2 v3 z0 = none) ∧
    (v1.z < z0 → v2.z < z0 → v3.z < z0 →
      getTriangleIntersectionSegments v1 v2 v3 z0 = none) ∧
    (v1.z = z0 → z0 < v2.z → z0 < v3.z →
      getTriangleIntersectionSegments v1 v2 v3 z0 = none) ∧
    (v2.z = z0 → z0 < v1.z → z0 < v3.z →
      getTriangleIntersectionSegments v1 v2 v3 z0 = none) ∧
    (v3.z = z0 → z0 < v1.z → z0 < v2.z →
      getTriangleIntersectionSegments v1 v2 v3 z0 = none) ∧
    (v1.z = z0 → v2.z < z0 → v3.z < z0 →
      getTriangleIntersectionSegments v1 v2 v3 z0 = some [(v1, v1)]) ∧
    (v2.z = z0 → v1.z < z0 → v3.z < z0 →
      getTriangleIntersectionSegments v1 v2 v3 z0 = some [(v2, v2)]) ∧
    (v3.z = z0 → v1.z < z0 → v2.z < z0 →
      getTriangleIntersectionSegments v1 v2 v3 z0 = some [(v3, v3)]) := by
  refine ⟨fun hA hB => exists_seg_of_two_le v1 v2 v3 z0
      (two_le_tp_of_above_below v1 v2 v3 z0 hA hB),
    fun h1 h2 h3 => tri_none_of_all_above v1 v2 v3 z0 h1 h2 h3,
    fun h1 h2 h3 => tri_none_of_all_below v1 v2 v3 z0 h1 h2 h3,
    fun h1 h2 h3 => tri_touch_above1 v1 v2 v3 z0 h1 h2 h3,
    fun h2 h1 h3 => tri_touch_above2 v1 v2 v3 z0 h2 h1 h3,
    fun h3 h1 h2 => tri_touch_above3 v1 v2 v3 z0 h3 h1 h2,
    fun h1 h2 h3 => tri_touch_below1 v1 v2 v3 z0 h1 h2 h3,
    fun h2 h1 h3 => tri_touch_below2 v1 v2 v3 z0 h2 h1 h3,
    fun h3 h1 h2 => tri_touch_below3 v1 v2 v3 z0 h3 h1 h2⟩

/-- C5 (amended): a triangle with one edge lying entirely on the plane
skips that edge; when the opposite vertex is strictly below the plane the
two other edges supply the two points and the triangle contributes the
on-plane edge as its segment, but when the opposite vertex is strictly
above only one point is collected and the triangle contributes no
segment. -/
theorem edge_on_plane_cases (v1 v2 v3 : Vec3) (z0 : ℚ) :
    (v1.z = z0 → v2.z = z0 → v3.z < z0 →
      getTriangleIntersectionSegments v1 v2 v3 z0 = some [(v2, v1)]) ∧
    (v2.z = z0 → v3.z = z0 → v1.z < z0 →
      getTriangleIntersectionSegments v1 v2 v3 z0 = some [(v2, v3)]) ∧
    (v3.z = z0 → v1.z = z0 → v2.z < z0 →
      getTriangleIntersectionSegments v1 v2 v3 z0 = some [(v1, v3)]) ∧
    (v1.z = z0 → v2.z = z0 → z0 < v3.z →
      getTriangleIntersectionSegments v1 v2 v3 z0 = none) ∧
    (v2.z = z0 → v3.z = z0 → z0 < v1.z →
      getTriangleIntersectionSegments v1 v2 v3 z0 = none) ∧
    (v3.z = z0 → v1.z = z0 → z0 < v2.z →
      getTriangleIntersectionSegments v1 v2 v3 z0 = none) := by
  refine ⟨?_, ?_, ?_, ?_, ?_, ?_⟩
  · -- edge (v1,v2) on plane, v3 strictly below
    intro h1 h2 h3
    obtain ⟨x1, y1, z1⟩ := v1
    obtain ⟨x2, y2, z2⟩ := v2
    simp only at h1 h2
    rw [eq_comm] at h1 h2
    subst h1
    subst h2
    unfold getTriangleIntersectionSegments trianglePoints
    rw [processEdge_on_plane z0 [] _ _ rfl rfl,
      processEdge_cross z0 [] _ v3 (Or.inl ⟨le_refl z0, h3⟩),
      processEdge_cross z0 _ v3 _ (Or.inr ⟨h3, le_refl z0⟩)]
    have hne : z0 - v3.z ≠ 0 := sub_ne_zero.mpr (ne_of_gt h3)
    simp [div_self hne]
  · -- edge (v2,v3) on plane, v1 strictly below
    intro h2 h3 h1
    obtain ⟨x2, y2, z2⟩ := v2
    obtain ⟨x3, y3, z3⟩ := v3
    simp only at h2 h3
    rw [eq_comm] at h2 h3
    subst h2
    subst h3
    unfold getTriangleIntersectionSegments trianglePoints
    rw [processEdge_cross z0 [] v1 _ (Or.inr ⟨h1, le_refl z0⟩),
      processEdge_on_plane z0 _ ⟨x2, y2, z0⟩ ⟨x3, y3, z0⟩ rfl rfl,
      processEdge_cross z0 _ _ v1 (Or.inl ⟨le_refl z0, h1⟩)]
    have hne : z0 - v1.z ≠ 0 := sub_ne_zero.mpr (ne_of_gt h1)
    simp [div_self hne]
  · -- edge (v3,v1) on plane, v2 strictly below
    intro h3 h1 h2
    obtain ⟨x1, y1, z1⟩ := v1
    obtain ⟨x3, y3, z3⟩ := v3
    simp only at h1 h3
    rw [eq_comm] at h1 h3
    subst h1
    subst h3
    unfold getTriangleIntersectionSegments trianglePoints
    rw [processEdge_cross z0 [] _ v2 (Or.inl ⟨le_refl z0, h2⟩),
      processEdge_cross z0 _ v2 _ (Or.inr ⟨h2, le_refl z0⟩),
      processEdge_on_plane z0 _ _ _ rfl rfl]
    have hne : z0 - v2.z ≠ 0 := sub_ne_zero.mpr (ne_of_gt h2)
    simp [div_self hne]
  · -- edge (v1,v2) on plane, v3 strictly above
    intro h1 h2 h3
    unfold getTriangleIntersectionSegments trianglePoints
    rw [processEdge_on_plane z0 [] v1 v2 h1 h2,
      processEdge_vertex z0 [] v2 v3 h2 h3]
    simp only [List.any_nil, Bool.false_eq_true, if_false, List.nil_append]
    rw [processEdge_above z0 [v2] v3 v1 h3 (le_of_eq h1.symm)]
  · -- edge (v2,v3) on plane, v1 strictly above
    intro h2 h3 h1
    unfold getTriangleIntersectionSegments trianglePoints
    rw [processEdge_above z0 [] v1 v2 h1 (le_of_eq h2.symm),
      processEdge_on_plane z0 [] v2 v3 h2 h3,
      processEdge_vertex z0 [] v3 v1 h3 h1]
    simp
  · -- edge (v3,v1) on plane, v2 strictly above
    intro h3 h1 h2
    unfold getTriangleIntersectionSegments trianglePoints
    rw [processEdge_vertex z0 [] v1 v2 h1 h2]
    simp only [List.any_nil, Bool.false_eq_true, if_false, List.nil_append]
    rw [processEdge_above z0 [v1] v2 v3 h2 (le_of_eq h3.symm),
      processEdge_on_plane z0 [v1] v3 v1 h3 h1]

/-- C2: the cut angle is `π·(1 − clamp(baseFlatten,0,100)/100)`, and layer
0's center height is chosen so that the flat cut face, at signed distance
`r·cos(theta)` above the center, lies exactly at `minZ`; at
`baseFlatten = 100` the center sits a full radius below the floor
(offset `minZ − centerZ0 = r`). -/
theorem base_flatten_offset (minZ radius p : ℝ) :
    thetaLength p = Real.pi * (1 - max 0 (min 100 p) / 100) ∧
    centerZ0 minZ radius p + radius * Real.cos (thetaLength p) = minZ ∧
    (p = 100 → minZ - centerZ0 minZ radius p = radius) := by
  refine ⟨rfl, ?_, ?_⟩
  · unfold centerZ0 baseZOffset
    ring
  · rintro rfl
    unfold centerZ0 baseZOffset thetaLength
    have h100 : max (0:ℝ) (min 100 100) = 100 := by norm_num
    rw [h100]
    norm_num

/-- C9: for a valid radius and overlap the derived steps equal
`2r·(1 − overlap/100)` exactly, for both the vertical and the horizontal
direction. -/
theorem step_sizing_formula (r overlap : ℚ) (hr : 0 < r)
    (h0 : 0 ≤ overlap) (h1 : overlap < 100) :
    layerStep r overlap = 2 * r * (1 - overlap / 100) ∧
    horizontalStep r overlap = 2 * r * (1 - overlap / 100) := by
  unfold layerStep horizontalStep overlapFactor
  constructor <;> ring

/-- C6 (amended): the overlap percentages are not clamped; the step is
always derived directly from the raw overlap value, so an out-of-range
overlap above 100 yields a negative step, not a positive one. -/
theorem overlap_not_clamped (r overlap : ℚ) (hr : 0 < r)
    (ho : 100 < overlap) :
    layerStep r overlap = (r * 2) * (1 - overlap / 100) ∧
    layerStep r overlap < 0 ∧ horizontalStep r overlap < 0 := by
  have hfac : 1 - overlap / 100 < 0 := by
    have : (1 : ℚ) < overlap / 100 := by
      rw [lt_div_iff (by norm_num : (0:ℚ) < 100)]
      linarith
    linarith
  have hstep : (r * 2) * (1 - overlap / 100) < 0 :=
    mul_neg_of_pos_of_neg (by linarith) hfac
  exact ⟨rfl, hstep, hstep⟩

/-- C8: when the plane lies strictly above every vertex of the mesh (or
strictly below every vertex), no triangle contributes a segment and the
slice is the empty loop list. -/
theorem slice_outside_bounds_empty (mesh : Mesh) (z0 : ℚ) :
    ((∀ t ∈ mesh, t.1.z < z0 ∧ t.2.1.z < z0 ∧ t.2.2.z < z0) →
      sliceSegments mesh z0 = [] ∧ getSliceContours mesh z0 = []) ∧
    ((∀ t ∈ mesh, z0 < t.1.z ∧ z0 < t.2.1.z ∧ z0 < t.2.2.z) →
      sliceSegments mesh z0 = [] ∧ getSliceContours mesh z0 = []) := by
  have hmain : ∀ (h : ∀ t ∈ mesh,
      getTriangleIntersectionSegments t.1 t.2.1 t.2.2 z0 = none),
      sliceSegments mesh z0 = [] ∧ getSliceContours mesh z0 = [] := by
    intro h
    have hseg : sliceSegments mesh z0 = [] := by
      unfold sliceSegments
      rw [List.flatMap_eq_nil_iff]
      intro t ht
      rw [h t ht]
      rfl
    refine ⟨hseg, ?_⟩
    unfold getSliceContours
    rw [hseg]
    rfl
  constructor
  · intro h
    exact hmain fun t ht =>
      tri_none_of_all_below t.1 t.2.1 t.2.2 z0 (h t ht).1 (h t ht).2.1 (h t ht).2.2
  · intro h
    exact hmain fun t ht =>
      tri_none_of_all_above t.1 t.2.1 t.2.2 z0 (h t ht).1 (h t ht).2.1 (h t ht).2.2

/-- Shape of the executed-layer list from index `i ≤ 700`: a contiguous
run `[i, …, i+k-1]` with `i + k ≤ 701`, every executed index passing the
top break test, and — unless the safety cap ended the loop — the first
unexecuted index failing it. -/
theorem layerIndicesFrom_spec (c0 step radius maxZ : ℚ) :
    ∀ d i, 700 - i ≤ d → i ≤ 700 → ∃ k,
      layerIndicesFrom c0 step radius maxZ i = (List.range k).map (i + ·) ∧
      i + k ≤ 701 ∧
      (∀ j, i ≤ j → j < i + k → c0 + j * step - radius ≤ maxZ) ∧
      (i + k ≤ 700 → maxZ < c0 + (i + k) * step - radius) := by
  intro d
  induction d with
  | zero =>
    intro i hd hi
    have hi700 : i = 700 := by omega
    subst hi700
    rw [layerIndicesFrom]
    by_cases hbr : c0 + (700 : ℕ) * step - radius > maxZ
    · refine ⟨0, by rw [if_pos hbr]; rfl, by omega, by omega, fun _ => ?_⟩
      simpa using hbr
    · rw [if_neg hbr]
      rw [dif_pos (by omega : 700 + 1 > 700)]
      refine ⟨1, ?_, by omega, ?_, by omega⟩
      · simp [List.range_succ]
      · intro j hj1 hj2
        have hj : j = 700 := by omega
        subst hj
        exact le_of_not_lt hbr
  | succ d ih =>
    intro i hd hi
    rw [layerIndicesFrom]
    by_cases hbr : c0 + (i : ℕ) * step - radius > maxZ
    · refine ⟨0, by rw [if_pos hbr]; rfl, by omega, by omega, fun _ => ?_⟩
      simpa using hbr
    · rw [if_neg hbr]
      by_cases hcap : i + 1 > 700
      · rw [dif_pos hcap]
        refine ⟨1, by simp [List.range_succ], by omega, ?_, by omega⟩
        intro j hj1 hj2
        have hj : j = i := by omega
        subst hj
        exact le_of_not_lt hbr
      · rw [dif_neg hcap]
        obtain ⟨k', heq, hle, hall, hbreak⟩ := ih (i + 1) (by omega) (by omega)
        refine ⟨k' + 1, ?_, by omega, ?_, ?_⟩
        · rw [heq, List.range_succ_eq_map, List.map_cons, List.map_map]
          have hfun : ((i + ·) ∘ Nat.succ) = ((i + 1) + ·) := by
            funext j
            simp only [Function.comp_apply]
            omega
          rw [hfun]
          simp
        · intro j hj1 hj2
          rcases eq_or_lt_of_le hj1 with rfl | hlt
          · exact le_of_not_lt hbr
          · exact hall j (by omega) (by omega)
        · intro hc
          have hb2 := hbreak (by omega)
          push_cast at hb2 ⊢
          linarith

/-- C3: for every configuration — any center height, any (possibly zero
or negative) vertical step, any radius and any `maxZ` — the layer loop
executes the contiguous index list `[0, …, n-1]` for some `n ≤ 701`:
every executed index passes the top break test
`¬(centerZ − radius > maxZ)`, and unless the 701-iteration safety cap
ended the loop, index `n` fails it, so the loop always terminates. -/
theorem layer_loop_terminates (c0 step radius maxZ : ℚ) :
    ∃ n, layerIndices c0 step radius maxZ = List.range n ∧ n ≤ 701 ∧
      (∀ i < n, c0 + (i : ℕ) * step - radius ≤ maxZ) ∧
      (n < 701 → maxZ < c0 + (n : ℕ) * step - radius) := by
  obtain ⟨k, heq, hle, hall, hbreak⟩ :=
    layerIndicesFrom_spec c0 step radius maxZ 700 0 (by omega) (by omega)
  refine ⟨k, ?_, by omega, ?_, ?_⟩
  · unfold layerIndices
    rw [heq]
    simp
  · intro i hi
    exact hall i (by omega) (by omega)
  · intro hk
    simpa using hbreak (by omega)

/-- Invariant of the outer stitching traversal: it only ever appends
chains of length at least 3 to the accumulated loop list. -/
theorem stitchOuter_three (segments : List Seg) :
    ∀ (ids : List ℕ) (visited : List ℕ) (loops : List (List Point2)),
      (∀ l ∈ loops, 3 ≤ l.length) →
      ∀ l ∈ stitchOuter segments ids visited loops, 3 ≤ l.length := by
  intro ids
  induction ids with
  | nil =>
    intro visited loops hinv l hl
    exact hinv l hl
  | cons i rest ih =>
    intro visited loops hinv l hl
    rw [stitchOuter] at hl
    by_cases hv : visited.contains i
    · rw [if_pos hv] at hl
      exact ih visited loops hinv l hl
    · rw [if_neg hv] at hl
      refine ih _ _ ?_ l hl
      intro l' hl'
      by_cases hlen : 3 ≤ (walkLoop segments segments.length
          (getPointKey (segments.getD i defaultSeg).2) (i :: visited)
          [((segments.getD i defaultSeg).1.x, (segments.getD i defaultSeg).1.y),
           ((segments.getD i defaultSeg).2.x, (segments.getD i defaultSeg).2.y)]).1.length
      · rw [if_pos hlen] at hl'
        rcases List.mem_append.mp hl' with h | h
        · exact hinv l' h
        · rw [List.mem_singleton.mp h]
          exact hlen
      · rw [if_neg hlen] at hl'
        exact hinv l' hl'

/-- C7: every loop emitted by the contour stitcher has at least 3 points;
shorter chains are dropped. -/
theorem stitch_loops_three_points (segments : List Seg) (loop : List Point2)
    (h : loop ∈ stitchSegments segments) : 3 ≤ loop.length := by
  unfold stitchSegments at h
  by_cases he : segments.isEmpty
  · rw [if_pos he] at h
    exact absurd h (List.not_mem_nil loop)
  · rw [if_neg he] at h
    exact stitchOuter_three segments (List.range segments.length) [] []
      (fun l hl => absurd hl (List.not_mem_nil l)) loop h

/-- Membership in the inclusive integer range of the grid loops. -/
theorem mem_intRange (a b n : ℤ) : n ∈ intRange a b ↔ a ≤ n ∧ n ≤ b := by
  unfold intRange
  simp only [List.mem_map, List.mem_range]
  constructor
  · rintro ⟨k, hk, rfl⟩
    omega
  · rintro ⟨h1, h2⟩
    exact ⟨(n - a).toNat, by omega, by omega⟩

/-- C10: every candidate grid point retained by `getGridPointsInContours`
lies on the absolute lattice `x = (n + 1/2)·spacing`,
`y = (m + 1/2)·spacing` (integers `n`, `m`); and the lattice is anchored
at the world origin, not at the bounding box: the same point is also
enumerated from any other bounding box containing it (for a positive
spacing), so a given spacing always yields the same candidate lattice. -/
theorem grid_points_on_lattice (contours : List (List Point2))
    (box box2 : Box2) (spacing : ℚ) (p : Point2)
    (hmem : p ∈ getGridPointsInContours contours box spacing) :
    (∃ n m : ℤ, p.1 = ((n : ℚ) + 1/2) * spacing ∧
      p.2 = ((m : ℚ) + 1/2) * spacing) ∧
    (0 < spacing → box2.minX ≤ p.1 → p.1 ≤ box2.maxX →
      box2.minY ≤ p.2 → p.2 ≤ box2.maxY →
      p ∈ getGridPointsInContours contours box2 spacing) := by
  unfold getGridPointsInContours at hmem
  simp only [List.mem_flatMap, List.mem_filterMap, mem_intRange] at hmem
  obtain ⟨n, hn, m, hm, hif⟩ := hmem
  by_cases hin : isPointInContours (↑n * spacing + spacing / 2)
      (↑m * spacing + spacing / 2) contours
  · rw [if_pos hin, Option.some_inj] at hif
    subst hif
    constructor
    · exact ⟨n, m, by push_cast; ring, by push_cast; ring⟩
    · intro hs hx1 hx2 hy1 hy2
      unfold getGridPointsInContours
      simp only [List.mem_flatMap, List.mem_filterMap, mem_intRange]
      refine ⟨n, ⟨?_, ?_⟩, m, ⟨?_, ?_⟩, by rw [if_pos hin]⟩
      · have hq : (box2.minX - spacing / 2) / spacing ≤ (n : ℚ) := by
          rw [div_le_iff hs]
          simp only at hx1
          linarith
        calc ⌊(box2.minX - spacing / 2) / spacing⌋ ≤ ⌊(n : ℚ)⌋ :=
              Int.floor_le_floor hq
          _ = n := Int.floor_intCast n
      · have hq : (n : ℚ) ≤ (box2.maxX - spacing / 2) / spacing := by
          rw [le_div_iff hs]
          simp only at hx2
          linarith
        calc n = ⌈(n : ℚ)⌉ := (Int.ceil_intCast n).symm
          _ ≤ ⌈(box2.maxX - spacing / 2) / spacing⌉ := Int.ceil_le_ceil hq
      · have hq : (box2.minY - spacing / 2) / spacing ≤ (m : ℚ) := by
          rw [div_le_iff hs]
          simp only at hy1
          linarith
        calc ⌊(box2.minY - spacing / 2) / spacing⌋ ≤ ⌊(m : ℚ)⌋ :=
              Int.floor_le_floor hq
          _ = m := Int.floor_intCast m
      · have hq : (m : ℚ) ≤ (box2.maxY - spacing / 2) / spacing := by
          rw [le_div_iff hs]
          simp only at hy2
          linarith
        calc m = ⌈(m : ℚ)⌉ := (Int.ceil_intCast m).symm
          _ ≤ ⌈(box2.maxY - spacing / 2) / spacing⌉ := Int.ceil_le_ceil hq
  · rw [if_neg hin] at hif
    exact absurd hif (Option.some_ne_none p).symm

/-! ## Concrete evaluations: counterexamples and witnesses
The rational arithmetic kernels of Batteries are sealed `irreducible`;
they are reopened locally so the kernel can evaluate the definitions on
concrete inputs. -/

section ConcreteEvaluations

attribute [local semireducible] Rat.add Rat.mul Rat.inv Rat.sub Rat.ofScientific

/-- C1 (counterexample): the triangle (0,0,−1), (1,0,−1), (0,1,0) touches
the plane z = 0 at the single vertex (0,1,0) from below, yet the function
returns a (degenerate) segment instead of `null`: both crossing branches
interpolate to the touching vertex and the crossing branch does not
deduplicate. -/
theorem plane_intersector_touch_below_cx :
    (Vec3.mk 0 0 (-1)).z < 0 ∧ (Vec3.mk 1 0 (-1)).z < 0 ∧
    (Vec3.mk 0 1 0).z = 0 ∧
    getTriangleIntersectionSegments ⟨0, 0, -1⟩ ⟨1, 0, -1⟩ ⟨0, 1, 0⟩ 0 =
      some [(⟨0, 1, 0⟩, ⟨0, 1, 0⟩)] := by
  decide

/-- C1 (witness): a triangle with one vertex strictly above and one
strictly below z = 0 yields exactly one segment. -/
theorem getTriangleIntersectionSegments_cases_witness :
    ∃ s, getTriangleIntersectionSegments ⟨0, 0, 1⟩ ⟨0, 1, -1⟩ ⟨1, 0, -1⟩ 0 =
      some [s] :=
  (getTriangleIntersectionSegments_cases ⟨0, 0, 1⟩ ⟨0, 1, -1⟩ ⟨1, 0, -1⟩ 0).1
    (Or.inl (by decide)) (Or.inr (Or.inl (by decide)))

/-- C5 (counterexample): the triangle (0,1,1), (0,0,0), (1,0,0) has the
edge (0,0,0)–(1,0,0) lying entirely on the plane z = 0, but its third
vertex is strictly above, so it contributes no segment at all. -/
theorem edge_on_plane_above_cx :
    (Vec3.mk 0 0 0).z = 0 ∧ (Vec3.mk 1 0 0).z = 0 ∧
    0 < (Vec3.mk 0 1 1).z ∧
    getTriangleIntersectionSegments ⟨0, 1, 1⟩ ⟨0, 0, 0⟩ ⟨1, 0, 0⟩ 0 = none := by
  decide

/-- C5 (witness): an on-plane edge with the third vertex strictly below
contributes the on-plane edge as its segment. -/
theorem edge_on_plane_cases_witness :
    getTriangleIntersectionSegments ⟨0, 0, 0⟩ ⟨1, 0, 0⟩ ⟨0, 1, -1⟩ 0 =
      some [(⟨1, 0, 0⟩, ⟨0, 0, 0⟩)] :=
  (edge_on_plane_cases ⟨0, 0, 0⟩ ⟨1, 0, 0⟩ ⟨0, 1, -1⟩ 0).1 rfl rfl (by decide)

/-- C4 (counterexample): slicing the cube of side 10 at z0 = 0 does yield
exactly one loop, but the loop has 9 points (the walk also records the 4
face midpoints and repeats the starting point), not 4. -/
theorem cube_slice_four_points_cx :
    (getSliceContours cube10 0).length = 1 ∧
    (getSliceContours cube10 0).headI.length ≠ 4 := by
  decide

/-- C4 (amended): slicing the cube of side 10 centered at the origin at
z0 = 0 yields exactly one closed loop of 9 points — the 4 corners and the
4 edge midpoints of the 10×10 square, with the first point repeated at
the end — and the point-in-contours test classifies (0,0) inside and
(6,6) outside. -/
theorem cube_slice_contour :
    getSliceContours cube10 0 =
      [[(5, -5), (0, -5), (-5, -5), (-5, 0), (-5, 5), (0, 5), (5, 5),
        (5, 0), (5, -5)]] ∧
    (getSliceContours cube10 0).headI.head? =
      (getSliceContours cube10 0).headI.getLast? ∧
    (getSliceContours cube10 0).headI.dedup.length = 8 ∧
    isPointInContours 0 0 (getSliceContours cube10 0) = true ∧
    isPointInContours 6 6 (getSliceContours cube10 0) = false := by
  decide

/-- C6 (counterexample): an out-of-range overlap of 150 % is not clamped:
with radius 1 it yields the step −1, which is not positive. -/
theorem overlap_clamp_cx :
    layerStep 1 150 = -1 ∧ ¬ 0 < layerStep 1 150 ∧
    horizontalStep 1 150 = -1 := by
  decide

/-- C6 (witness): any overlap above 100 yields a negative step. -/
theorem overlap_not_clamped_witness :
    layerStep 1 150 = (1 * 2) * (1 - 150 / 100) ∧
    layerStep 1 150 < 0 ∧ horizontalStep 1 150 < 0 :=
  overlap_not_clamped 1 150 (by decide) (by decide)

/-- C9 (witness): at radius 1 and overlap 0 both steps equal the sphere
diameter. -/
theorem step_sizing_formula_witness :
    layerStep 1 0 = 2 * 1 * (1 - 0 / 100) ∧
    horizontalStep 1 0 = 2 * 1 * (1 - 0 / 100) :=
  step_sizing_formula 1 0 (by decide) (by decide) (by decide)

/-- C2 (witness): at baseFlatten = 100 the center of a layer-0 sphere
of radius 1 sits exactly one radius below the floor. -/
theorem base_flatten_offset_witness :
    (0 : ℝ) - centerZ0 0 1 100 = 1 :=
  (base_flatten_offset 0 1 100).2.2 rfl

/-- C3 (witness): a concrete configuration (start 0, step 1, radius 1,
maxZ 5) executes a contiguous prefix of layers and stops. -/
theorem layer_loop_terminates_witness :
    ∃ n, layerIndices 0 1 1 5 = List.range n ∧ n ≤ 701 ∧
      (∀ i < n, (0 : ℚ) + (i : ℚ) * 1 - 1 ≤ 5) ∧
      (n < 701 → (5 : ℚ) < 0 + (n : ℚ) * 1 - 1) :=
  layer_loop_terminates 0 1 1 5

/-- C7 (witness): the loop stitched from the three segments of a triangle
has at least 3 points. -/
theorem stitch_loops_three_points_witness :
    3 ≤ ([((0 : ℚ), (0 : ℚ)), (1, 0), (0, 1), (0, 0)] : List Point2).length :=
  stitch_loops_three_points
    [(⟨0, 0, 0⟩, ⟨1, 0, 0⟩), (⟨1, 0, 0⟩, ⟨0, 1, 0⟩), (⟨0, 1, 0⟩, ⟨0, 0, 0⟩)]
    [((0 : ℚ), (0 : ℚ)), (1, 0), (0, 1), (0, 0)] (by decide)

/-- C8 (witness): a single triangle entirely below z0 = 10 produces no
segments and an empty loop list. -/
theorem slice_outside_bounds_empty_witness :
    sliceSegments [(⟨0, 0, 0⟩, ⟨1, 0, 0⟩, ⟨0, 1, 1⟩)] 10 = [] ∧
    getSliceContours [(⟨0, 0, 0⟩, ⟨1, 0, 0⟩, ⟨0, 1, 1⟩)] 10 = [] :=
  (slice_outside_bounds_empty [(⟨0, 0, 0⟩, ⟨1, 0, 0⟩, ⟨0, 1, 1⟩)] 10).1
    (by decide)

/-- C10 (witness): the retained grid point (2,2) of a 4×4 square contour
with spacing 4 lies on the origin-anchored lattice and is reproduced from
the same box. -/
theorem grid_points_on_lattice_witness :
    (∃ n m : ℤ, ((2 : ℚ), (2 : ℚ)).1 = ((n : ℚ) + 1/2) * 4 ∧
      ((2 : ℚ), (2 : ℚ)).2 = ((m : ℚ) + 1/2) * 4) ∧
    (0 < (4 : ℚ) → (Box2.mk 0 0 4 4).minX ≤ ((2 : ℚ), (2 : ℚ)).1 →
      ((2 : ℚ), (2 : ℚ)).1 ≤ (Box2.mk 0 0 4 4).maxX →
      (Box2.mk 0 0 4 4).minY ≤ ((2 : ℚ), (2 : ℚ)).2 →
      ((2 : ℚ), (2 : ℚ)).2 ≤ (Box2.mk 0 0 4 4).maxY →
      ((2 : ℚ), (2 : ℚ)) ∈ getGridPointsInContours
        [[(0, 0), (4, 0), (4, 4), (0, 4)]] (Box2.mk 0 0 4 4) 4) :=
  grid_points_on_lattice [[(0, 0), (4, 0), (4, 4), (0, 4)]]
    (Box2.mk 0 0 4 4) (Box2.mk 0 0 4 4) 4 ((2 : ℚ), (2 : ℚ)) (by decide)

end ConcreteEvaluations

end BubblePrinter
